import Mathlib

/-!
Shallow embedding of src/treeview.py (class TreeGraph) and verification of
the specification claims about it.

A Python TreeNode is a namedtuple (name, image, children) where image is an
optional asset identifier and children an ordered list of nodes.  Trees are
modelled by a pair of mutually inductive types so that every function over
them is structurally recursive and kernel-evaluable on concrete inputs.

Conventions of the embedding:
  - Python int division a // b on nonnegative operands is Nat division; the
    one division with a possibly negative numerator (-root_width // 2 in
    display_tree) is Int.fdiv, which is Python floor division.
  - Canvas coordinates are Int; per-pass constants (spacing, canvas size,
    widths) are Nat, exactly as they arise from Nat divisions in the source.
  - Python exceptions (the ValueError raised on image decode or lookup
    failure) are the error side of an Except value carrying the asset id and
    the cause string, mirroring the message
    f"Failed to load image: \x7bnode.image\x7d. \x7bstr(e)\x7d".
  - The tkinter canvas is modelled by the ordered list of primitive draw
    instructions issued to it; the decoded PhotoImage handles are an
    abstract type parameter, and PIL decoding is an oracle
    load : String → Except String α passed to preload_images.
  - Python truthiness of node.image: None and the empty string are falsy.
-/

namespace Treeview

mutual
/-- A tree node as in the source: TreeNode = namedtuple(name, image, children). -/
inductive TreeNode : Type where
  | mk (name : String) (image : Option String) (children : TreeList)
/-- An ordered list of child nodes. -/
inductive TreeList : Type where
  | nil : TreeList
  | cons (t : TreeNode) (ts : TreeList) : TreeList
end

def TreeNode.name : TreeNode → String
  | .mk n _ _ => n

def TreeNode.image : TreeNode → Option String
  | .mk _ i _ => i

def TreeNode.children : TreeNode → TreeList
  | .mk _ _ c => c

def TreeList.length : TreeList → Nat
  | .nil => 0
  | .cons _ ts => ts.length + 1

/-- Python max over a list, folding from the head (max of an empty generator
is never taken in the source; 0 is a dummy value for that case). -/
def pyMax : List Nat → Nat
  | [] => 0
  | x :: xs => xs.foldl max x

/-- Python sum over a list. -/
def pySum (l : List Nat) : Nat := l.foldl (fun a b => a + b) 0

mutual
/-- TreeGraph.calculate_tree_size: leaf gives (1, 1); an internal node gives
width max(max child width, child count) and height (sum of child heights) + 1. -/
def calculate_tree_size : TreeNode → Nat × Nat
  | .mk _ _ .nil => (1, 1)
  | .mk _ _ (.cons c cs) =>
    let child_sizes := sizeList (.cons c cs)
    let max_child_width := pyMax (child_sizes.map Prod.fst)
    let total_height := pySum (child_sizes.map Prod.snd)
    (max max_child_width (TreeList.cons c cs).length, total_height + 1)
/-- The list comprehension [self.calculate_tree_size(child) for child in node.children]. -/
def sizeList : TreeList → List (Nat × Nat)
  | .nil => []
  | .cons t ts => calculate_tree_size t :: sizeList ts
end

/-- TreeGraph.calculate_node_spacing: floor divisions of the canvas size by
the tree size.  The source raises nothing here; the function is total. -/
def calculate_node_spacing (canvas_width canvas_height : Nat)
    (tree_size : Nat × Nat) : Nat × Nat :=
  (canvas_width / tree_size.1, canvas_height / tree_size.2)

/-- The error raised as ValueError(f"Failed to load image: ...") in the
source: it carries the offending asset id and the cause text. -/
structure AssetLoadError where
  assetId : String
  cause : String
deriving DecidableEq

/-- The preloaded_images dict: assignment prepends, lookup takes the most
recent binding. -/
def Cache (α : Type) : Type := List (String × α)

def cacheLookup {α : Type} : Cache α → String → Option α
  | [], _ => none
  | (k, v) :: rest, id => if k = id then some v else cacheLookup rest id

mutual
/-- TreeGraph.preload_images: if node.image is truthy, decode it (the oracle
load stands for Image.open + resize + PhotoImage) and store it under its id,
raising on the first decode failure; then recurse into the children. -/
def preload_images {α : Type} (load : String → Except String α) :
    TreeNode → Cache α → Except AssetLoadError (Cache α)
  | .mk _ image children, cache =>
    match image with
    | none => preload_list load children cache
    | some id =>
      if id.isEmpty then preload_list load children cache
      else
        match load id with
        | .error c => .error ⟨id, c⟩
        | .ok h => preload_list load children ((id, h) :: cache)
/-- The loop for child in node.children: self.preload_images(child). -/
def preload_list {α : Type} (load : String → Except String α) :
    TreeList → Cache α → Except AssetLoadError (Cache α)
  | .nil, cache => .ok cache
  | .cons c cs, cache =>
    match preload_images load c cache with
    | .error e => .error e
    | .ok cache2 => preload_list load cs cache2
end

/-- One primitive canvas instruction issued by draw_tree. -/
inductive Instr : Type where
  | image (x y : Int) (assetId : String)
  | rect (x1 y1 x2 y2 : Int)
  | text (x y : Int) (label : String)
  | line (x1 y1 x2 y2 : Int)
deriving DecidableEq

/-- The head of TreeGraph.draw_tree: draw the preloaded image if node.image
is truthy (a missing cache entry is the KeyError re-raised as ValueError),
else a lightblue rectangle of the fixed 80 by 60 node size. -/
def nodeShape {α : Type} (cache : Cache α) (image : Option String)
    (x y : Int) : Except AssetLoadError (List Instr) :=
  match image with
  | some id =>
    if id.isEmpty then .ok [Instr.rect (x - 40) (y - 30) (x + 40) (y + 30)]
    else
      match cacheLookup cache id with
      | some _ => .ok [Instr.image x y id]
      | none => .error ⟨id, "KeyError"⟩
  | none => .ok [Instr.rect (x - 40) (y - 30) (x + 40) (y + 30)]

mutual
/-- TreeGraph.draw_tree: emit the shape of this node and label at (x, y); if it
has children, reserve total_width = num_children * x_spacing, start at
x - total_width // 2, and for each child draw the connecting arrow, recurse
at (start_x + x_spacing // 2, y + y_spacing), and advance start_x by the
returned width of the child; return total_width, or the node width 80 at a leaf. -/
def draw_tree {α : Type} (cache : Cache α) (x_spacing y_spacing : Nat) :
    TreeNode → Int → Int → Except AssetLoadError (List Instr × Nat)
  | .mk name image children, x, y =>
    match nodeShape cache image x y with
    | .error e => .error e
    | .ok shape =>
      let withLabel := shape ++ [Instr.text x y name]
      match children with
      | .nil => .ok (withLabel, 80)
      | .cons c cs =>
        let total_width := (TreeList.cons c cs).length * x_spacing
        let start_x : Int := x - ((total_width / 2 : Nat) : Int)
        match draw_children cache x_spacing y_spacing (.cons c cs) x y start_x with
        | .error e => .error e
        | .ok rest => .ok (withLabel ++ rest, total_width)
/-- The loop over node.children in draw_tree. -/
def draw_children {α : Type} (cache : Cache α) (x_spacing y_spacing : Nat) :
    TreeList → Int → Int → Int → Except AssetLoadError (List Instr)
  | .nil, _, _, _ => .ok []
  | .cons c cs, x, y, start_x =>
    let cx : Int := start_x + ((x_spacing / 2 : Nat) : Int)
    let edge := Instr.line x (y + 30) cx (y + (y_spacing : Int) - 30)
    match draw_tree cache x_spacing y_spacing c cx (y + (y_spacing : Int)) with
    | .error e => .error e
    | .ok (cinstrs, child_width) =>
      match draw_children cache x_spacing y_spacing cs x y (start_x + (child_width : Int)) with
      | .error e => .error e
      | .ok rest => .ok (edge :: cinstrs ++ rest)
end

/-- The canvas scrollregion tuple set by display_tree. -/
structure ScrollRegion where
  minX : Int
  minY : Int
  maxX : Int
  maxY : Int
deriving DecidableEq

/-- TreeGraph.display_tree: draw from (canvas_width // 2, 30) and set the
scroll region to (-root_width // 2, -30, root_width // 2, canvas_height);
Python -root_width // 2 is floor division of the negated width. -/
def display_tree {α : Type} (cache : Cache α) (x_spacing y_spacing : Nat)
    (canvas_width canvas_height : Nat) (data : TreeNode) :
    Except AssetLoadError (List Instr × ScrollRegion) :=
  match draw_tree cache x_spacing y_spacing data ((canvas_width / 2 : Nat) : Int) 30 with
  | .error e => .error e
  | .ok (instrs, root_width) =>
    .ok (instrs,
      ⟨Int.fdiv (-(root_width : Int)) 2, -30, ((root_width / 2 : Nat) : Int), (canvas_height : Int)⟩)

/-! Derived observations on the embedding, used to state the claims. -/

mutual
/-- Number of nodes of a tree. -/
def countNodes : TreeNode → Nat
  | .mk _ _ children => 1 + countList children
/-- Number of nodes of a list of trees. -/
def countList : TreeList → Nat
  | .nil => 0
  | .cons c cs => countNodes c + countList cs
end

mutual
/-- Pre-order list of the depths of the nodes of a tree, the root at 0. -/
def depths : TreeNode → List Nat
  | .mk _ _ children => 0 :: (depthsL children).map (fun d => d + 1)
/-- Concatenated depths lists of a list of trees, each rooted at 0. -/
def depthsL : TreeList → List Nat
  | .nil => []
  | .cons c cs => depths c ++ depthsL cs
end

mutual
/-- Pre-order list of all nodes of a tree. -/
def allNodes : TreeNode → List TreeNode
  | .mk n i children => .mk n i children :: allNodesL children
/-- Concatenated node lists of a list of trees. -/
def allNodesL : TreeList → List TreeNode
  | .nil => []
  | .cons c cs => allNodes c ++ allNodesL cs
end

mutual
/-- Pre-order list of the truthy asset ids of a tree: the order in which
preload_images attempts to decode them. -/
def assetIds : TreeNode → List String
  | .mk _ image children =>
    (match image with
     | none => []
     | some id => if id.isEmpty then [] else [id]) ++ assetIdsL children
/-- Concatenated asset id lists of a list of trees. -/
def assetIdsL : TreeList → List String
  | .nil => []
  | .cons c cs => assetIds c ++ assetIdsL cs
end

/-- Sequentially decode a list of asset ids into the cache, stopping at the
first failure: the order-of-events skeleton of preload_images. -/
def foldIds {α : Type} (load : String → Except String α) :
    List String → Cache α → Except AssetLoadError (Cache α)
  | [], cache => .ok cache
  | id :: ids, cache =>
    match load id with
    | .error c => .error ⟨id, c⟩
    | .ok h => foldIds load ids ((id, h) :: cache)

/-- Is this instruction the shape (image or placeholder rectangle) of a node? -/
def isNodeShape : Instr → Bool
  | .image _ _ _ => true
  | .rect _ _ _ _ => true
  | _ => false

/-- Is this instruction a node label? -/
def isLabel : Instr → Bool
  | .text _ _ _ => true
  | _ => false

/-- The y coordinates of the node labels, in emission order: one label is
emitted per node, so these are the y coordinates of the nodes. -/
def textYs : List Instr → List Int
  | [] => []
  | .text _ y _ :: rest => y :: textYs rest
  | .image _ _ _ :: rest => textYs rest
  | .rect _ _ _ _ :: rest => textYs rest
  | .line _ _ _ _ :: rest => textYs rest

/-- The x coordinate of the first label instruction with the given text. -/
def textXFor (label : String) : List Instr → Option Int
  | [] => none
  | .text x _ l :: rest => if l = label then some x else textXFor label rest
  | .image _ _ _ :: rest => textXFor label rest
  | .rect _ _ _ _ :: rest => textXFor label rest
  | .line _ _ _ _ :: rest => textXFor label rest

/-! Concrete trees used by the scenario claims. -/

/-- A leaf with no asset. -/
def leaf (n : String) : TreeNode := .mk n none .nil

/-- Scenario A of the specification: a root with the two leaf children
"Hello" and "World". -/
def scenarioA : TreeNode :=
  .mk "" none (.cons (leaf "Hello") (.cons (leaf "World") .nil))

/-- The chain tree of n + 1 nodes in which every non-leaf node has exactly
one child: chain 9 is the depth-10 tree of Scenario D. -/
def chain : Nat → TreeNode
  | 0 => leaf "n"
  | n + 1 => .mk "n" none (.cons (chain n) .nil)

/-- A root with a single leaf child, used to separate the reserved width
from the sum of the widths of the children. -/
def oneChildTree : TreeNode := .mk "r" none (.cons (leaf "c") .nil)

/-- The full instruction list that the pipeline emits for scenarioA under
the default 800 by 600 canvas. -/
def scenarioAInstrs : List Instr :=
  [Instr.rect 360 0 440 60, Instr.text 400 30 "",
   Instr.line 400 60 200 200, Instr.rect 160 200 240 260, Instr.text 200 230 "Hello",
   Instr.line 400 60 280 200, Instr.rect 240 200 320 260, Instr.text 280 230 "World"]

/-- A decode oracle for which asset "a" decodes and every other asset fails
with cause "boom". -/
def loadW : String → Except String Nat :=
  fun s => if s = "a" then .ok 0 else .error "boom"

/-- A two-node tree whose root bears asset "a" and whose child bears asset
"b": under loadW, preload decodes "a" and then fails on "b". -/
def preloadTreeW : TreeNode :=
  .mk "r" (some "a") (.cons (.mk "c" (some "b") .nil) .nil)

mutual
/-- Modelled from the wording of the specification (SizeEstimator policy),
for comparison with calculate_tree_size: a leaf has footprint (1, 1); an
internal node has widthUnits = max(max(childWidths), childCount) and
heightLevels = sum(childHeights) + 1. -/
def footprintSpec : TreeNode → Nat × Nat
  | .mk _ _ .nil => (1, 1)
  | .mk _ _ (.cons c cs) =>
    let fps := footprintSpecL (.cons c cs)
    (max ((fps.map Prod.fst).foldr max 0) (TreeList.cons c cs).length,
     (fps.map Prod.snd).sum + 1)
/-- The child footprints of the spec-side policy. -/
def footprintSpecL : TreeList → List (Nat × Nat)
  | .nil => []
  | .cons c cs => footprintSpec c :: footprintSpecL cs
end

/-! Helper lemmas. -/

theorem foldl_max_eq (xs : List Nat) : ∀ x : Nat, xs.foldl max x = max x (xs.foldr max 0) := by
  induction xs with
  | nil => intro x; simp
  | cons y ys ih => intro x; simp [List.foldl_cons, List.foldr_cons, ih (max x y), Nat.max_assoc]

theorem pyMax_eq (x : Nat) (xs : List Nat) : pyMax (x :: xs) = (x :: xs).foldr max 0 := by
  simp [pyMax, foldl_max_eq, List.foldr_cons]

theorem foldl_add_eq (l : List Nat) : ∀ n : Nat, l.foldl (fun a b => a + b) n = n + l.sum := by
  induction l with
  | nil => intro n; simp
  | cons y ys ih => intro n; simp [List.foldl_cons, List.sum_cons, ih (n + y)]; omega

theorem pySum_eq (l : List Nat) : pySum l = l.sum := by
  simp [pySum, foldl_add_eq]

mutual
theorem size_eq_spec : ∀ t : TreeNode, calculate_tree_size t = footprintSpec t
  | .mk _ _ .nil => rfl
  | .mk _ _ (.cons c cs) => by
    simp only [calculate_tree_size, footprintSpec,
      sizeList_eq_spec (TreeList.cons c cs), footprintSpecL, List.map_cons, pyMax_eq, pySum_eq,
      List.foldr_cons]
theorem sizeList_eq_spec : ∀ ts : TreeList, sizeList ts = footprintSpecL ts
  | .nil => rfl
  | .cons c cs => by
    simp only [sizeList, footprintSpecL, size_eq_spec c, sizeList_eq_spec cs]
end

/-- C1: for every tree node, the footprint computed by calculate_tree_size
satisfies the policy stated by the specification: a leaf has footprint
(1, 1); an internal node has widthUnits = max(max(childWidths), childCount)
and heightLevels = sum(childHeights) + 1, as captured by footprintSpec. -/
theorem claim_C1_size_matches_spec_policy : ∀ t : TreeNode, calculate_tree_size t = footprintSpec t :=
  size_eq_spec

mutual
theorem height_counts : ∀ t : TreeNode, (calculate_tree_size t).2 = countNodes t
  | .mk _ _ .nil => rfl
  | .mk _ _ (.cons c cs) => by
    simp only [calculate_tree_size, countNodes, pySum_eq]
    have h := heightL_counts (TreeList.cons c cs)
    omega
theorem heightL_counts : ∀ ts : TreeList, ((sizeList ts).map Prod.snd).sum = countList ts
  | .nil => rfl
  | .cons c cs => by
    simp only [sizeList, countList, List.map_cons, List.sum_cons,
      height_counts c, heightL_counts cs]
end

/-- C9: for every tree, the heightLevels component of the footprint computed
by calculate_tree_size equals the number of nodes of the tree, not its
depth. -/
theorem claim_C9_height_counts_nodes : ∀ t : TreeNode, (calculate_tree_size t).2 = countNodes t :=
  height_counts

/-- C7: in the chain tree of depth 10 in which every non-leaf node has
exactly one child, every node has widthUnits 1, and the root footprint is
(1, 10). -/
theorem claim_C7_chain_footprint :
    (∀ t ∈ allNodes (chain 9), (calculate_tree_size t).1 = 1) ∧
    calculate_tree_size (chain 9) = (1, 10) := by
  constructor
  · intro t ht
    fin_cases ht <;> rfl
  · rfl

/-- Witness for C7: the root of the chain is one of its nodes and its
computed width is 1. -/
theorem claim_C7_witness : (calculate_tree_size (chain 9)).1 = 1 :=
  claim_C7_chain_footprint.1 (chain 9) (List.mem_cons_self _ _)

/-- C3, counterexample: the spacing derivation does not fail on a 1 by 1
viewport with the non-trivial scenarioA tree: calculate_node_spacing is a
total function that returns the degenerate spacing (0, 0), the source
defines no DegenerateLayoutError, and the layout pass then runs to
completion with that spacing instead of being stopped before layout. -/
theorem claim_C3_counterexample :
    calculate_tree_size scenarioA = (2, 3) ∧
    calculate_node_spacing 1 1 (2, 3) = (0, 0) ∧
    (display_tree ([] : Cache Unit) 0 0 1 1 scenarioA).isOk = true :=
  ⟨rfl, rfl, rfl⟩

/-- C3, amended: spacing is derived as xStep = floor(width / widthUnits) and
yStep = floor(height / heightLevels), but no error is raised when a step
resolves to zero: on a 1 by 1 viewport the derivation returns (0, 0) and the
subsequent layout proceeds with that degenerate spacing. -/
theorem claim_C3_spacing_amended :
    (∀ (w h : Nat) (fp : Nat × Nat), calculate_node_spacing w h fp = (w / fp.1, h / fp.2)) ∧
    calculate_node_spacing 1 1 (calculate_tree_size scenarioA) = (0, 0) ∧
    (display_tree ([] : Cache Unit) 0 0 1 1 scenarioA).isOk = true :=
  ⟨fun _ _ _ => rfl, rfl, rfl⟩

/-- C4, counterexample: under the 800 by 600 viewport the two children of
scenarioA are drawn at x = 200 and x = 280, and 200 + 280 is not 2 * 400, so
they are not symmetric around x = 400 as the claim states. -/
theorem claim_C4_counterexample :
    (display_tree ([] : Cache Unit) 400 200 800 600 scenarioA).map
      (fun r => (textXFor "Hello" r.1, textXFor "World" r.1)) =
      .ok (some 200, some 280) ∧
    ¬((200 : Int) + 280 = 2 * 400) :=
  ⟨rfl, by decide⟩

/-- C4, amended: for scenarioA under the default 800 by 600 canvas the
derived spacing is (400, 200), both children are drawn at
y = 30 + yStep = 230 and the plan contains an edge from the root anchor
(400, 60) to each child, but their x coordinates are 200 and 280: the second
child is offset from the first by the returned leaf width 80, not by xStep,
so the children are not symmetric around x = 400. -/
theorem claim_C4_scenarioA_amended :
    calculate_node_spacing 800 600 (calculate_tree_size scenarioA) = (400, 200) ∧
    display_tree ([] : Cache Unit) 400 200 800 600 scenarioA =
      .ok (scenarioAInstrs, ⟨-400, -30, 400, 600⟩) ∧
    textXFor "Hello" scenarioAInstrs = some 200 ∧
    textXFor "World" scenarioAInstrs = some 280 ∧
    textYs scenarioAInstrs = [30, 230, 230] ∧
    Instr.line 400 60 200 200 ∈ scenarioAInstrs ∧
    Instr.line 400 60 280 200 ∈ scenarioAInstrs :=
  ⟨rfl, rfl, rfl, rfl, rfl, by decide, by decide⟩

/-- C2, counterexample: with spacing xStep = 400, the root of oneChildTree
(one leaf child) returns subtree width 1 * 400 = 400, while its only child
returns 80, so the internal return value is the reserved width, not the sum
of the returned widths of the children. -/
theorem claim_C2_counterexample :
    Except.map Prod.snd (draw_tree ([] : Cache Unit) 400 200 oneChildTree 400 30) = .ok 400 ∧
    Except.map Prod.snd (draw_tree ([] : Cache Unit) 400 200 (leaf "c") 400 230) = .ok 80 ∧
    (400 : Nat) ≠ 80 :=
  ⟨rfl, rfl, by decide⟩

/-- C2, amended: the draw recursion returns the fixed node width 80 at a
leaf, and at an internal node it returns the reserved width
totalWidth = childCount * xStep, not the sum of the returned
subtree widths of the children (startX does advance by the returned child widths, but
the return value is left at the reserved total). -/
theorem claim_C2_subtree_width_amended :
    (∀ {α : Type} (cache : Cache α) (xs ys : Nat) (name : String) (image : Option String)
      (x y : Int) (instrs : List Instr) (w : Nat),
      draw_tree cache xs ys (.mk name image .nil) x y = .ok (instrs, w) → w = 80) ∧
    (∀ {α : Type} (cache : Cache α) (xs ys : Nat) (name : String) (image : Option String)
      (c : TreeNode) (cs : TreeList) (x y : Int) (instrs : List Instr) (w : Nat),
      draw_tree cache xs ys (.mk name image (.cons c cs)) x y = .ok (instrs, w) →
      w = (TreeList.cons c cs).length * xs) := by
  constructor
  · intro α cache xs ys name image x y instrs w h
    simp only [draw_tree] at h
    cases hs : nodeShape cache image x y with
    | error e => rw [hs] at h; exact absurd h (by simp)
    | ok shape =>
      rw [hs] at h
      simp only [Except.ok.injEq, Prod.mk.injEq] at h
      exact h.2.symm
  · intro α cache xs ys name image c cs x y instrs w h
    simp only [draw_tree] at h
    cases hs : nodeShape cache image x y with
    | error e => rw [hs] at h; exact absurd h (by simp)
    | ok shape =>
      rw [hs] at h
      cases hd : draw_children cache xs ys (.cons c cs) x y
          (x - (((TreeList.cons c cs).length * xs / 2 : Nat) : Int)) with
      | error e => rw [hd] at h; exact absurd h (by simp)
      | ok rest =>
        rw [hd] at h
        simp only [Except.ok.injEq, Prod.mk.injEq] at h
        exact h.2.symm

/-- Witness for C2: applying the amended theorem to the scenarioA root under
the derived spacing (400, 200) gives the reserved width 2 * 400 = 800. -/
theorem claim_C2_witness :
    (800 : Nat) = (TreeList.cons (leaf "Hello") (TreeList.cons (leaf "World") TreeList.nil)).length * 400 :=
  claim_C2_subtree_width_amended.2 ([] : Cache Unit) 400 200 "" none
    (leaf "Hello") (TreeList.cons (leaf "World") TreeList.nil) 400 30 scenarioAInstrs 800 rfl

/-- C8: the layout recursion is deterministic: two calls of draw_tree whose
cache, spacing, tree and starting coordinates are equal produce the same
draw plan and coordinates; the embedding of draw_tree is a pure function of
those inputs, with no other state. -/
theorem claim_C8_layout_deterministic :
    ∀ {α : Type} (cache1 cache2 : Cache α) (xs1 xs2 ys1 ys2 : Nat)
      (t1 t2 : TreeNode) (x1 x2 y1 y2 : Int),
      cache1 = cache2 → xs1 = xs2 → ys1 = ys2 → t1 = t2 → x1 = x2 → y1 = y2 →
      draw_tree cache1 xs1 ys1 t1 x1 y1 = draw_tree cache2 xs2 ys2 t2 x2 y2 := by
  intro α cache1 cache2 xs1 xs2 ys1 ys2 t1 t2 x1 x2 y1 y2 hc hxs hys ht hx hy
  rw [hc, hxs, hys, ht, hx, hy]

/-- Witness for C8: the two scenarioA layout calls with identical inputs
coincide. -/
theorem claim_C8_witness :
    draw_tree ([] : Cache Unit) 400 200 scenarioA 400 30 =
      draw_tree ([] : Cache Unit) 400 200 scenarioA 400 30 :=
  claim_C8_layout_deterministic [] [] 400 400 200 200 scenarioA scenarioA 400 400 30 30
    rfl rfl rfl rfl rfl rfl

theorem nodeShape_shape {α : Type} (cache : Cache α) (image : Option String) (x y : Int)
    (l : List Instr) (h : nodeShape cache image x y = .ok l) :
    l = [Instr.rect (x - 40) (y - 30) (x + 40) (y + 30)] ∨ ∃ id, l = [Instr.image x y id] := by
  unfold nodeShape at h
  split at h
  next id =>
    split at h
    · left
      simp only [Except.ok.injEq] at h
      exact h.symm
    · split at h
      next => right; exact ⟨id, by simp only [Except.ok.injEq] at h; exact h.symm⟩
      next => simp at h
  next => left; simp only [Except.ok.injEq] at h; exact h.symm

theorem nodeShape_counts {α : Type} (cache : Cache α) (image : Option String) (x y : Int)
    (l : List Instr) (h : nodeShape cache image x y = .ok l) :
    (l.filter isNodeShape).length = 1 ∧ (l.filter isLabel).length = 0 := by
  rcases nodeShape_shape cache image x y l h with h1 | ⟨id, h1⟩ <;> subst h1 <;>
    simp [isNodeShape, isLabel, List.filter]

theorem nodeShape_textYs {α : Type} (cache : Cache α) (image : Option String) (x y : Int)
    (l : List Instr) (h : nodeShape cache image x y = .ok l) :
    textYs l = [] := by
  rcases nodeShape_shape cache image x y l h with h1 | ⟨id, h1⟩ <;> subst h1 <;> simp [textYs]

theorem textYs_append (l1 l2 : List Instr) : textYs (l1 ++ l2) = textYs l1 ++ textYs l2 := by
  induction l1 with
  | nil => simp [textYs]
  | cons i rest ih => cases i <;> simp [textYs, ih]

mutual
theorem draw_counts {α : Type} (cache : Cache α) (xs ys : Nat) :
    ∀ (t : TreeNode) (x y : Int) (instrs : List Instr) (w : Nat),
    draw_tree cache xs ys t x y = .ok (instrs, w) →
    (instrs.filter isNodeShape).length = countNodes t ∧
    (instrs.filter isLabel).length = countNodes t
  | .mk name image .nil, x, y, instrs, w => by
    intro h
    simp only [draw_tree] at h
    cases hs : nodeShape cache image x y with
    | error e => rw [hs] at h; simp at h
    | ok shape =>
      rw [hs] at h
      obtain ⟨h1, h2⟩ := nodeShape_counts cache image x y shape hs
      simp only [Except.ok.injEq, Prod.mk.injEq] at h
      obtain ⟨hi, _⟩ := h
      subst hi
      simp [List.filter_append, countNodes, countList, isLabel, isNodeShape, h1, h2, List.filter]
  | .mk name image (.cons c cs), x, y, instrs, w => by
    intro h
    simp only [draw_tree] at h
    cases hs : nodeShape cache image x y with
    | error e => rw [hs] at h; simp at h
    | ok shape =>
      rw [hs] at h
      obtain ⟨h1, h2⟩ := nodeShape_counts cache image x y shape hs
      cases hd : draw_children cache xs ys (.cons c cs) x y
          (x - (((TreeList.cons c cs).length * xs / 2 : Nat) : Int)) with
      | error e => rw [hd] at h; simp at h
      | ok rest =>
        rw [hd] at h
        simp only [Except.ok.injEq, Prod.mk.injEq] at h
        obtain ⟨hi, _⟩ := h
        subst hi
        obtain ⟨h3, h4⟩ := draw_counts_list cache xs ys (.cons c cs) x y _ rest hd
        simp [List.filter_append, countNodes, h3, h4, h1, h2, isLabel, isNodeShape, List.filter]
        omega
theorem draw_counts_list {α : Type} (cache : Cache α) (xs ys : Nat) :
    ∀ (ts : TreeList) (x y sx : Int) (instrs : List Instr),
    draw_children cache xs ys ts x y sx = .ok instrs →
    (instrs.filter isNodeShape).length = countList ts ∧
    (instrs.filter isLabel).length = countList ts
  | .nil, x, y, sx, instrs => by
    intro h
    simp only [draw_children, Except.ok.injEq] at h
    subst h
    simp [countList, List.filter]
  | .cons c cs, x, y, sx, instrs => by
    intro h
    simp only [draw_children] at h
    cases h1 : draw_tree cache xs ys c (sx + ((xs / 2 : Nat) : Int)) (y + (ys : Int)) with
    | error e => rw [h1] at h; simp at h
    | ok p =>
      obtain ⟨cinstrs, cw⟩ := p
      simp only [h1] at h
      cases h2 : draw_children cache xs ys cs x y (sx + (cw : Int)) with
      | error e => rw [h2] at h; simp at h
      | ok rest =>
        rw [h2] at h
        simp only [Except.ok.injEq] at h
        subst h
        obtain ⟨ha1, ha2⟩ := draw_counts cache xs ys c _ _ _ _ h1
        obtain ⟨hb1, hb2⟩ := draw_counts_list cache xs ys cs _ _ _ _ h2
        simp [List.filter_cons, List.filter_append, countList,
          isNodeShape, isLabel, ha1, ha2, hb1, hb2]
end

/-- C5: whenever drawing a tree succeeds, the draw plan contains exactly one
node shape (image or placeholder rectangle) and exactly one label per node
of the tree: every node reachable from the root appears exactly once. -/
theorem claim_C5_one_instruction_per_node :
    ∀ {α : Type} (cache : Cache α) (xs ys : Nat) (t : TreeNode) (x y : Int)
      (instrs : List Instr) (w : Nat),
    draw_tree cache xs ys t x y = .ok (instrs, w) →
    (instrs.filter isNodeShape).length = countNodes t ∧
    (instrs.filter isLabel).length = countNodes t :=
  fun cache xs ys t x y instrs w h => draw_counts cache xs ys t x y instrs w h

/-- Witness for C5: the scenarioA plan has exactly three shapes and three
labels for the three nodes of the tree. -/
theorem claim_C5_witness :
    (scenarioAInstrs.filter isNodeShape).length = countNodes scenarioA ∧
    (scenarioAInstrs.filter isLabel).length = countNodes scenarioA :=
  claim_C5_one_instruction_per_node ([] : Cache Unit) 400 200 scenarioA 400 30
    scenarioAInstrs 800 rfl

theorem foldIds_append {α : Type} (load : String → Except String α) :
    ∀ (l1 l2 : List String) (cache : Cache α),
    foldIds load (l1 ++ l2) cache =
      match foldIds load l1 cache with
      | .error e => .error e
      | .ok c2 => foldIds load l2 c2 := by
  intro l1
  induction l1 with
  | nil => intro l2 cache; simp [foldIds]
  | cons id ids ih =>
    intro l2 cache
    simp only [List.cons_append, foldIds]
    cases hl : load id with
    | error c => simp
    | ok h => simp [ih]

mutual
theorem preload_eq_node {α : Type} (load : String → Except String α) :
    ∀ (t : TreeNode) (cache : Cache α),
    preload_images load t cache = foldIds load (assetIds t) cache
  | .mk n image children, cache => by
    cases image with
    | none =>
      simp only [preload_images, assetIds, List.nil_append,
        preload_eq_list load children cache]
    | some id =>
      simp only [preload_images, assetIds]
      cases he : id.isEmpty with
      | true => simp [preload_eq_list load children cache]
      | false =>
        simp only [Bool.false_eq_true, if_false, List.cons_append, List.nil_append, foldIds]
        cases hl : load id with
        | error c => rfl
        | ok h => simp [preload_eq_list load children ((id, h) :: cache)]
theorem preload_eq_list {α : Type} (load : String → Except String α) :
    ∀ (ts : TreeList) (cache : Cache α),
    preload_list load ts cache = foldIds load (assetIdsL ts) cache
  | .nil, cache => rfl
  | .cons c cs, cache => by
    simp only [preload_list, assetIdsL, foldIds_append, preload_eq_node load c cache]
    cases hp : foldIds load (assetIds c) cache with
    | error e => rfl
    | ok c2 => simp [preload_eq_list load cs c2]
end

/-- C6: if, in the order preload_images visits them, every asset before some
asset id decodes and id itself fails with cause c, then the whole preload
pass stops there and returns exactly the error carrying id and c: no cache, not
even an incomplete one, is made available. -/
theorem claim_C6_preload_first_failure :
    ∀ {α : Type} (load : String → Except String α) (t : TreeNode) (cache : Cache α)
      (pre : List String) (id : String) (post : List String) (c : String),
    assetIds t = pre ++ id :: post →
    (∀ i ∈ pre, (load i).isOk = true) →
    load id = .error c →
    preload_images load t cache = .error ⟨id, c⟩ := by
  intro α load t cache pre id post c hids hpre hfail
  rw [preload_eq_node load t cache, hids]
  clear hids
  revert hpre
  induction pre generalizing cache with
  | nil => intro _; simp [foldIds, hfail]
  | cons p ps ih =>
    intro hpre
    have hp : (load p).isOk = true := hpre p (by simp)
    cases hl : load p with
    | error e => rw [hl] at hp; simp [Except.isOk, Except.toBool] at hp
    | ok h =>
      simp only [List.cons_append, foldIds, hl]
      exact ih ((p, h) :: cache) (fun i hi => hpre i (List.mem_cons_of_mem _ hi))

/-- Witness for C6: under loadW the tree preloadTreeW decodes "a" and then
fails on "b" with cause "boom"; preload returns exactly that error. -/
theorem claim_C6_witness :
    preload_images loadW preloadTreeW [] = .error ⟨"b", "boom"⟩ :=
  claim_C6_preload_first_failure loadW preloadTreeW [] ["a"] "b" [] "boom"
    rfl (by decide) rfl

mutual
theorem draw_textYs {α : Type} (cache : Cache α) (xs ys : Nat) :
    ∀ (t : TreeNode) (x y : Int) (instrs : List Instr) (w : Nat),
    draw_tree cache xs ys t x y = .ok (instrs, w) →
    textYs instrs = (depths t).map (fun d => y + ((d * ys : Nat) : Int))
  | .mk name image .nil, x, y, instrs, w => by
    intro h
    simp only [draw_tree] at h
    cases hs : nodeShape cache image x y with
    | error e => rw [hs] at h; simp at h
    | ok shape =>
      rw [hs] at h
      simp only [Except.ok.injEq, Prod.mk.injEq] at h
      obtain ⟨hi, _⟩ := h
      subst hi
      have ht := nodeShape_textYs cache image x y shape hs
      simp [textYs_append, ht, textYs, depths, depthsL]
  | .mk name image (.cons c cs), x, y, instrs, w => by
    intro h
    simp only [draw_tree] at h
    cases hs : nodeShape cache image x y with
    | error e => rw [hs] at h; simp at h
    | ok shape =>
      rw [hs] at h
      cases hd : draw_children cache xs ys (.cons c cs) x y
          (x - (((TreeList.cons c cs).length * xs / 2 : Nat) : Int)) with
      | error e => rw [hd] at h; simp at h
      | ok rest =>
        rw [hd] at h
        simp only [Except.ok.injEq, Prod.mk.injEq] at h
        obtain ⟨hi, _⟩ := h
        subst hi
        have ht := nodeShape_textYs cache image x y shape hs
        have hr := draw_textYs_list cache xs ys (.cons c cs) x y _ rest hd
        simp only [textYs_append, ht, List.nil_append, textYs, hr, depths, List.map_cons,
          List.map_map, Nat.zero_mul, Nat.cast_zero, add_zero, List.singleton_append,
          List.cons.injEq, true_and]
        refine List.map_congr_left (fun d _ => ?_)
        simp only [Function.comp]
        push_cast
        ring
theorem draw_textYs_list {α : Type} (cache : Cache α) (xs ys : Nat) :
    ∀ (ts : TreeList) (x y sx : Int) (instrs : List Instr),
    draw_children cache xs ys ts x y sx = .ok instrs →
    textYs instrs = (depthsL ts).map (fun d => (y + (ys : Int)) + ((d * ys : Nat) : Int))
  | .nil, x, y, sx, instrs => by
    intro h
    simp only [draw_children, Except.ok.injEq] at h
    subst h
    simp [textYs, depthsL]
  | .cons c cs, x, y, sx, instrs => by
    intro h
    simp only [draw_children] at h
    cases h1 : draw_tree cache xs ys c (sx + ((xs / 2 : Nat) : Int)) (y + (ys : Int)) with
    | error e => rw [h1] at h; simp at h
    | ok p =>
      obtain ⟨cinstrs, cw⟩ := p
      simp only [h1] at h
      cases h2 : draw_children cache xs ys cs x y (sx + (cw : Int)) with
      | error e => rw [h2] at h; simp at h
      | ok rest =>
        rw [h2] at h
        simp only [Except.ok.injEq] at h
        subst h
        have ha := draw_textYs cache xs ys c _ _ _ _ h1
        have hb := draw_textYs_list cache xs ys cs _ _ _ _ h2
        simp [textYs, textYs_append, ha, hb, depthsL, List.map_append]
end

/-- C10: for every tree drawn via display_tree, the y coordinates of the
node labels, in draw order, are exactly 30 + depth * yStep for the pre-order
list of node depths: the y coordinate of a node depends only on its depth, not on
its horizontal position or siblings. -/
theorem claim_C10_y_from_depth :
    ∀ {α : Type} (cache : Cache α) (xs ys cw ch : Nat) (t : TreeNode)
      (instrs : List Instr) (sr : ScrollRegion),
    display_tree cache xs ys cw ch t = .ok (instrs, sr) →
    textYs instrs = (depths t).map (fun d => (30 : Int) + ((d * ys : Nat) : Int)) := by
  intro α cache xs ys cw ch t instrs sr h
  unfold display_tree at h
  cases hd : draw_tree cache xs ys t ((cw / 2 : Nat) : Int) 30 with
  | error e => rw [hd] at h; simp at h
  | ok p =>
    obtain ⟨instrs2, rw2⟩ := p
    simp only [hd, Except.ok.injEq, Prod.mk.injEq] at h
    obtain ⟨hi, _⟩ := h
    subst hi
    exact draw_textYs cache xs ys t _ _ _ _ hd

/-- Witness for C10: for scenarioA the label y coordinates are
[30, 230, 230], that is 30 + d * 200 for the depth list [0, 1, 1]. -/
theorem claim_C10_witness :
    textYs scenarioAInstrs =
      (depths scenarioA).map (fun d => (30 : Int) + ((d * 200 : Nat) : Int)) :=
  claim_C10_y_from_depth ([] : Cache Unit) 400 200 800 600 scenarioA
    scenarioAInstrs ⟨-400, -30, 400, 600⟩ rfl

end Treeview

